import Mathlib

/-!
Shallow embedding of the core of `misikbal/dcac-dataserver` (src/server.js):
the single-slot data store (`DataBuffer`), the WebSocket client registry
(`connectedClients` Map), liveness sweeping (`pingInterval`), broadcasting
(`broadcastData`), removal (`cleanupClient`), the ingest endpoint
(`app.post('/api/data')`) and the read endpoints.

JavaScript values visible to this code are modelled by `JVal`; the JS
`undefined` (absent property, absent body) is modelled as `none : Option JVal`.
Time stamps (`Date.now()`) are passed in explicitly as integers.  Transport
effects (`ws.send`, `ws.ping`, `ws.terminate` throwing, `ws.readyState`) are
modelled as boolean fields of the transport handle.
-/

set_option autoImplicit false
set_option linter.unusedVariables false

namespace Dcac

/-- JSON/JavaScript values as handled by the server endpoints. -/
inductive JVal where
  | jnull
  | jbool (b : Bool)
  | jnum (n : Int)
  | jstr (s : String)
  | jarr (elems : List JVal)
  | jobj (fields : List (String × JVal))

/-- JavaScript truthiness of a value (used by the source's `!data`,
`!data.timestamp` checks).  NaN is not modelled; numbers are integers. -/
def truthy : JVal → Bool
  | .jnull => false
  | .jbool b => b
  | .jnum n => n != 0
  | .jstr s => s != ""
  | .jarr _ => true
  | .jobj _ => true

/-- Lookup of a property in an object's field list (first match). -/
def lookupField : List (String × JVal) → String → Option JVal
  | [], _ => none
  | (k, v) :: rest, key => if k = key then some v else lookupField rest key

/-- JS property access `v.key`: `none` models `undefined`. -/
def getField : JVal → String → Option JVal
  | .jobj fields, k => lookupField fields k
  | _, _ => none

/-- Truthiness of a possibly-undefined value (`undefined` is falsy). -/
def truthyOpt : Option JVal → Bool
  | none => false
  | some v => truthy v

/-- `Array.isArray(x)` on a possibly-undefined value. -/
def isArrayOpt : Option JVal → Bool
  | some (.jarr _) => true
  | _ => false

/-- The source's defaulting idiom `Array.isArray(x) ? x : []`, as the
element list. -/
def asArray : Option JVal → List JVal
  | some (.jarr xs) => xs
  | _ => []

/-- JS object-spread override semantics: if the key is present its value is
replaced in place, otherwise the pair is appended (insertion order kept). -/
def setField (fields : List (String × JVal)) (k : String) (v : JVal) :
    List (String × JVal) :=
  if fields.any (fun p => p.1 == k) then
    fields.map (fun p => if p.1 == k then (k, v) else p)
  else fields ++ [(k, v)]

/-- Whether an object value carries a property with the given key. -/
def hasField (v : JVal) (k : String) : Bool :=
  match v with
  | .jobj fs => fs.any (fun p => p.1 == k)
  | _ => false

mutual
/-- `JSON.stringify` over the modelled values (string escaping is not
modelled; object key order is preserved, as in JS). -/
def serialize : JVal → String
  | .jnull => "null"
  | .jbool true => "true"
  | .jbool false => "false"
  | .jnum n => toString n
  | .jstr s => "\x22" ++ s ++ "\x22"
  | .jarr xs => "[" ++ serializeElems xs ++ "]"
  | .jobj fs => "\x7b" ++ serializeFields fs ++ "\x7d"

/-- Comma-separated serialization of array elements. -/
def serializeElems : List JVal → String
  | [] => ""
  | [x] => serialize x
  | x :: xs => serialize x ++ "," ++ serializeElems xs

/-- Comma-separated serialization of object fields. -/
def serializeFields : List (String × JVal) → String
  | [] => ""
  | [(k, v)] => "\x22" ++ k ++ "\x22:" ++ serialize v
  | (k, v) :: fs => "\x22" ++ k ++ "\x22:" ++ serialize v ++ "," ++ serializeFields fs
end

/-! ## DataBuffer (src/server.js lines 143-162) -/

/-- The single-slot store: only the latest sample is kept. -/
structure DataBuffer where
  latestData : Option JVal

/-- The object stored by `DataBuffer.push`: the pushed data spread together
with a `storedAt` stamp.  The source only ever pushes objects; spreading a
non-object primitive yields just the stamp field, as in JS. -/
def withStoredAt (data : JVal) (storeNow : Int) : JVal :=
  match data with
  | .jobj fs => .jobj (setField fs "storedAt" (.jnum storeNow))
  | _ => .jobj [("storedAt", .jnum storeNow)]

/-- Lines 148-153: `push` overwrites the slot with the data plus `storedAt`. -/
def DataBuffer.push (buf : DataBuffer) (data : JVal) (storeNow : Int) : DataBuffer :=
  { latestData := some (withStoredAt data storeNow) }

/-- Lines 155-157: `getLatest` returns a zero- or one-element array. -/
def DataBuffer.getLatest (buf : DataBuffer) : List JVal :=
  match buf.latestData with
  | some d => [d]
  | none => []

/-- Lines 159-161: `clear` empties the slot. -/
def DataBuffer.clear (buf : DataBuffer) : DataBuffer :=
  { latestData := none }

/-! ## Connection registry (src/server.js lines 36-126) -/

/-- Transport-level behaviour of one WebSocket handle: whether its
`readyState` is `OPEN`, and whether `send` / `ping` / `terminate` would
throw when invoked. -/
structure Transport where
  readyStateOpen : Bool
  sendFails : Bool
  pingFails : Bool
  terminateFails : Bool
deriving DecidableEq, Repr

/-- One entry of the `connectedClients` map (lines 41-46):
`\x7b ws, connectedAt, lastPing, isAlive \x7d`. -/
structure ClientState where
  ws : Transport
  connectedAt : Int
  lastPing : Int
  isAlive : Bool
deriving DecidableEq, Repr

/-- The `connectedClients` JS `Map`, as an insertion-ordered association
list with unique keys. -/
abbrev Registry := List (String × ClientState)

/-- `Map.get`: first entry with the given key. -/
def regLookup : Registry → String → Option ClientState
  | [], _ => none
  | (k, c) :: rest, id => if k = id then some c else regLookup rest id

/-- `Map.set`: replace in place if the key exists, else append. -/
def mapSet : Registry → String → ClientState → Registry
  | [], id, c => [(id, c)]
  | (k, v) :: rest, id, c =>
      if k = id then (id, c) :: rest else (k, v) :: mapSet rest id c

/-- `Map.delete`: drop the entry with the given key. -/
def mapDelete (r : Registry) (id : String) : Registry :=
  r.filter (fun p => p.1 != id)

/-- Keys of the registry, in order. -/
def regKeys (r : Registry) : List String := r.map Prod.fst

/-- Result of `client.ws.terminate()` (may throw, line 78). -/
def terminateResult (c : ClientState) : Except String Unit :=
  if c.ws.terminateFails then .error "terminate failed" else .ok ()

/-- Lines 74-84, `cleanupClient`: if the id is present, terminate the
transport (any exception is caught and only logged, both branches below
proceed identically) and delete the entry; otherwise do nothing. -/
def cleanupClient (r : Registry) (id : String) : Registry :=
  match regLookup r id with
  | some c =>
      match terminateResult c with
      | .ok _ => mapDelete r id
      | .error _ => mapDelete r id
  | none => r

/-- Lines 39-49, the connection handler: builds a fresh entry with
`isAlive := true` and inserts it under the externally generated id
(`Math.random().toString(36).substring(7)`, passed in here as the oracle's
output).  No freshness check is performed. -/
def onConnection (r : Registry) (generatedId : String) (now : Int)
    (ws : Transport) : Registry :=
  mapSet r generatedId
    { ws := ws, connectedAt := now, lastPing := now, isAlive := true }

/-- Lines 52-58, the `pong` handler: if the id is still registered, set
`isAlive := true` and refresh `lastPing`; otherwise nothing happens. -/
def onPong (r : Registry) (id : String) (now : Int) : Registry :=
  match regLookup r id with
  | some c => mapSet r id { c with isAlive := true, lastPing := now }
  | none => r

/-- Effect of one sweep cycle on a single entry (lines 88-101): an entry
with `isAlive = false` is removed; otherwise `isAlive` is set `false` and a
ping is sent, and if the ping throws the entry is removed at once. -/
def sweepClient (c : ClientState) : Option ClientState :=
  if !c.isAlive then none
  else if c.ws.pingFails then none
  else some { c with isAlive := false }

/-- Lines 87-102, the `pingInterval` sweep over the whole registry.  The JS
loop visits entries in order and each callback removes at most the entry it
is visiting, so the live-map iteration is equivalent to this filterMap. -/
def sweep (r : Registry) : Registry :=
  r.filterMap (fun p => (sweepClient p.2).map (fun c => (p.1, c)))

/-! ## Broadcast (src/server.js lines 105-126) -/

/-- What one pass of the broadcast loop produces: the `ws.send` attempts
made (id with the exact string sent), the ids delivered to (send did not
throw), and the ids collected in `failedClients`. -/
structure PassResult where
  attempts : List (String × String)
  delivered : List String
  failed : List String
deriving DecidableEq, Repr

/-- Lines 111-122, the `forEach` pass: an open transport gets a send
attempt (and joins `failedClients` if the send throws); a non-open
transport is marked failed without an attempt. -/
def broadcastPass (message : String) : Registry → PassResult
  | [] => { attempts := [], delivered := [], failed := [] }
  | (id, c) :: rest =>
      let t := broadcastPass message rest
      if c.ws.readyStateOpen then
        if c.ws.sendFails then
          { attempts := (id, message) :: t.attempts,
            delivered := t.delivered,
            failed := id :: t.failed }
        else
          { attempts := (id, message) :: t.attempts,
            delivered := id :: t.delivered,
            failed := t.failed }
      else
        { attempts := t.attempts, delivered := t.delivered,
          failed := id :: t.failed }

/-- Observable outcome of one `broadcastData` call: how many times the
payload was serialized, the send attempts, the delivered ids, and the
registry after the failed clients were cleaned up. -/
structure BroadcastOutcome where
  serializations : Nat
  attempts : List (String × String)
  delivered : List String
  registry : Registry
deriving DecidableEq, Repr

/-- Lines 105-126, `broadcastData`: early exit on an empty registry
(nothing serialized, nothing sent); otherwise serialize once, run the send
pass, then remove every failed client via `cleanupClient`. -/
def broadcastData (r : Registry) (data : JVal) : BroadcastOutcome :=
  if r.isEmpty then
    { serializations := 0, attempts := [], delivered := [], registry := r }
  else
    let message := serialize data
    let pass := broadcastPass message r
    { serializations := 1,
      attempts := pass.attempts,
      delivered := pass.delivered,
      registry := pass.failed.foldl cleanupClient r }

/-! ## Ingest endpoint (src/server.js lines 217-258) -/

/-- Whole-server state touched by the ingest path. -/
structure ServerState where
  dataPoints : DataBuffer
  connectedClients : Registry

/-- Response of the ingest endpoint: 400 `Invalid data format`, or the
success body echoing the timestamp and the current client count. -/
inductive IngestResult where
  | invalidPayload
  | success (timestamp : JVal) (clientCount : Nat)

/-- Outcome of one POST to `/api/data`: the new state, the response, and
the payload handed to `setImmediate(() => broadcastData(...))` if any. -/
structure IngestOutcome where
  state : ServerState
  result : IngestResult
  scheduledBroadcast : Option JVal

/-- Lines 228-236, the stored object: required fields copied, optional
array fields defaulted via `Array.isArray(x) ? x : []`, plus `receivedAt`.
Callers only reach this after validation, so `timestamp` is truthy and
`harmonic` is an array; absent fields are rendered as `jnull` here. -/
def buildStored (d : JVal) (recvNow : Int) : JVal :=
  .jobj
    [("timestamp", (getField d "timestamp").getD .jnull),
     ("volt", .jarr (asArray (getField d "volt"))),
     ("current", .jarr (asArray (getField d "current"))),
     ("power", .jarr (asArray (getField d "power"))),
     ("harmonic", (getField d "harmonic").getD .jnull),
     ("events", .jarr (asArray (getField d "events"))),
     ("receivedAt", .jnum recvNow)]

/-- The source's validation condition (line 222), positively:
`data` truthy, `data.timestamp` truthy, `Array.isArray(data.harmonic)`. -/
def validPayload (d : JVal) : Bool :=
  truthy d && truthyOpt (getField d "timestamp")
    && isArrayOpt (getField d "harmonic")

/-- Lines 217-258, the POST `/api/data` handler.  `payload = none` models a
missing/undefined body.  `recvNow` is the `Date.now()` of line 235 and
`storeNow` the one of line 151. -/
def ingest (s : ServerState) (payload : Option JVal)
    (recvNow storeNow : Int) : IngestOutcome :=
  match payload with
  | none =>
      { state := s, result := .invalidPayload, scheduledBroadcast := none }
  | some d =>
      if !truthy d || !truthyOpt (getField d "timestamp")
          || !isArrayOpt (getField d "harmonic") then
        { state := s, result := .invalidPayload, scheduledBroadcast := none }
      else
        let storedData := buildStored d recvNow
        { state := { s with
            dataPoints := s.dataPoints.push storedData storeNow },
          result := .success ((getField d "timestamp").getD .jnull)
            s.connectedClients.length,
          scheduledBroadcast := some storedData }

/-! ## Read endpoints (src/server.js lines 308-407) -/

/-- The integrity filter of GET `/api/data` (lines 319-324): item truthy,
timestamp truthy, `harmonic` an array of positive length. -/
def dataItemValid (item : JVal) : Bool :=
  truthy item && truthyOpt (getField item "timestamp")
    && isArrayOpt (getField item "harmonic")
    && decide (0 < (asArray (getField item "harmonic")).length)

/-- Lines 308-341, GET `/api/data`: empty answer when nothing is stored or
nothing passes the integrity filter, else the filtered latest data. -/
def apiData (s : ServerState) : List JVal :=
  let data := s.dataPoints.getLatest
  if data.isEmpty then []
  else
    let validData := data.filter dataItemValid
    if validData.isEmpty then [] else validData

/-- The power-quality projection of one item (lines 353-358). -/
def pqProject (item : JVal) : JVal :=
  .jobj
    [("timestamp", (getField item "timestamp").getD .jnull),
     ("volt", (getField item "volt").getD .jnull),
     ("current", (getField item "current").getD .jnull),
     ("power", (getField item "power").getD .jnull)]

/-- Lines 344-365, GET `/api/power-quality`: empty when nothing is stored,
else the projection of every latest item (no harmonic-emptiness filter). -/
def apiPowerQuality (s : ServerState) : List JVal :=
  let data := s.dataPoints.getLatest
  if data.isEmpty then [] else data.map pqProject

/-- The harmonics projection of one item (lines 376-379). -/
def harmonicsProject (item : JVal) : JVal :=
  .jobj
    [("timestamp", (getField item "timestamp").getD .jnull),
     ("harmonic", (getField item "harmonic").getD .jnull)]

/-- Lines 367-386, GET `/api/harmonics`. -/
def apiHarmonics (s : ServerState) : List JVal :=
  let data := s.dataPoints.getLatest
  if data.isEmpty then [] else data.map harmonicsProject

/-- The events projection of one item (lines 397-400). -/
def eventsProject (item : JVal) : JVal :=
  .jobj
    [("timestamp", (getField item "timestamp").getD .jnull),
     ("events", (getField item "events").getD .jnull)]

/-- Lines 388-407, GET `/api/events`. -/
def apiEvents (s : ServerState) : List JVal :=
  let data := s.dataPoints.getLatest
  if data.isEmpty then [] else data.map eventsProject

/-! ## Registry event traces (for the liveness claims) -/

/-- Asynchronous events acting on the registry: one sweep cycle of the
`pingInterval` timer, or a pong acknowledgment arriving for an id. -/
inductive RegEvent where
  | sweepCycle
  | pongAck (id : String) (now : Int)
deriving DecidableEq, Repr

/-- Apply one event to the registry. -/
def applyEvent (r : Registry) : RegEvent → Registry
  | .sweepCycle => sweep r
  | .pongAck id now => onPong r id now

/-- Apply a trace of events, left to right. -/
def applyTrace (r : Registry) (evs : List RegEvent) : Registry :=
  evs.foldl applyEvent r

/-- Whether an event is a sweep cycle. -/
def isSweep : RegEvent → Bool
  | .sweepCycle => true
  | _ => false

/-- Number of sweep cycles in a trace. -/
def sweepCount (evs : List RegEvent) : Nat :=
  (evs.filter isSweep).length

/-- Whether an event is a pong acknowledgment for the given id. -/
def isAckFor (id : String) : RegEvent → Bool
  | .pongAck i _ => i == id
  | _ => false

/-- The trace pattern "acknowledges between every pair of consecutive
sweeps": `needAck` records whether a pong for `id` is still owed before the
next sweep may run. -/
def ackPattern (id : String) : Bool → List RegEvent → Bool
  | _, [] => true
  | needAck, .sweepCycle :: rest => !needAck && ackPattern id true rest
  | needAck, .pongAck i _ :: rest =>
      ackPattern id (needAck && !(i == id)) rest

/-! ## Registry lemmas -/

theorem regKeys_cons (k : String) (c : ClientState) (rest : Registry) :
    regKeys ((k, c) :: rest) = k :: regKeys rest := rfl

theorem regKeys_append (r1 r2 : Registry) :
    regKeys (r1 ++ r2) = regKeys r1 ++ regKeys r2 := by
  simp [regKeys]

theorem regLookup_eq_none_iff (r : Registry) (id : String) :
    regLookup r id = none ↔ id ∉ regKeys r := by
  induction r with
  | nil => simp [regLookup, regKeys]
  | cons p rest ih =>
      obtain ⟨k, c⟩ := p
      rw [regKeys_cons]
      by_cases hk : k = id
      · subst hk
        simp [regLookup]
      · have hk2 : id ≠ k := fun h => hk h.symm
        simp [regLookup, hk, hk2, ih]

theorem mem_regKeys_of_lookup {r : Registry} {id : String} {c : ClientState}
    (h : regLookup r id = some c) : id ∈ regKeys r := by
  by_contra hmem
  rw [← regLookup_eq_none_iff] at hmem
  rw [h] at hmem
  exact Option.noConfusion hmem

theorem regLookup_append_left {r1 : Registry} {id : String} {c : ClientState}
    (h : regLookup r1 id = some c) (r2 : Registry) :
    regLookup (r1 ++ r2) id = some c := by
  induction r1 with
  | nil => simp [regLookup] at h
  | cons p rest ih =>
      obtain ⟨k, v⟩ := p
      by_cases hk : k = id
      · subst hk
        simp [regLookup] at h ⊢
        exact h
      · simp [regLookup, hk] at h ⊢
        exact ih h

theorem regLookup_append_right {r1 : Registry} {id : String}
    (h : id ∉ regKeys r1) (r2 : Registry) :
    regLookup (r1 ++ r2) id = regLookup r2 id := by
  induction r1 with
  | nil => rfl
  | cons p rest ih =>
      obtain ⟨k, v⟩ := p
      rw [regKeys_cons, List.mem_cons] at h
      push_neg at h
      have hk : k ≠ id := fun hh => h.1 hh.symm
      simp [regLookup, hk]
      exact ih h.2

theorem regLookup_mapSet_self (r : Registry) (k : String) (c : ClientState) :
    regLookup (mapSet r k c) k = some c := by
  induction r with
  | nil => simp [mapSet, regLookup]
  | cons p rest ih =>
      obtain ⟨k0, v⟩ := p
      by_cases hk : k0 = k
      · simp [mapSet, hk, regLookup]
      · simp [mapSet, hk, regLookup, ih]

theorem regLookup_mapSet_ne {id k : String} (hne : id ≠ k)
    (r : Registry) (c : ClientState) :
    regLookup (mapSet r k c) id = regLookup r id := by
  have hkid : k ≠ id := fun h => hne h.symm
  induction r with
  | nil => simp [mapSet, regLookup, hkid]
  | cons p rest ih =>
      obtain ⟨k0, v⟩ := p
      by_cases hk : k0 = k
      · subst hk
        simp [mapSet, regLookup, hkid]
      · simp [mapSet, hk, regLookup, ih]

theorem regKeys_mapSet_mem {r : Registry} {k : String}
    (h : k ∈ regKeys r) (c : ClientState) :
    regKeys (mapSet r k c) = regKeys r := by
  induction r with
  | nil => simp [regKeys] at h
  | cons p rest ih =>
      obtain ⟨k0, v⟩ := p
      by_cases hk : k0 = k
      · subst hk
        simp [mapSet, regKeys_cons]
      · rw [regKeys_cons, List.mem_cons] at h
        rcases h with h | h
        · exact absurd h.symm hk
        · simp [mapSet, hk, regKeys_cons, ih h]

theorem regKeys_mapSet_not_mem {r : Registry} {k : String}
    (h : k ∉ regKeys r) (c : ClientState) :
    mapSet r k c = r ++ [(k, c)] := by
  induction r with
  | nil => simp [mapSet]
  | cons p rest ih =>
      obtain ⟨k0, v⟩ := p
      rw [regKeys_cons, List.mem_cons] at h
      push_neg at h
      have hk : k0 ≠ k := fun hh => h.1 hh.symm
      simp [mapSet, hk, ih h.2]

theorem regLookup_mapDelete_self (r : Registry) (id : String) :
    regLookup (mapDelete r id) id = none := by
  induction r with
  | nil => rfl
  | cons p rest ih =>
      obtain ⟨k, c⟩ := p
      simp only [mapDelete, List.filter_cons] at ih ⊢
      by_cases hk : k = id
      · simp [hk, ih]
      · simp [hk, regLookup, ih]

theorem mapDelete_of_not_mem {r : Registry} {id : String}
    (h : id ∉ regKeys r) : mapDelete r id = r := by
  induction r with
  | nil => rfl
  | cons p rest ih =>
      obtain ⟨k, c⟩ := p
      rw [regKeys_cons, List.mem_cons] at h
      push_neg at h
      have hk : ¬(k = id) := fun hh => h.1 hh.symm
      simp only [mapDelete, List.filter_cons] at ih ⊢
      simp [hk, ih h.2]

theorem mapDelete_append (r1 r2 : Registry) (id : String) :
    mapDelete (r1 ++ r2) id = mapDelete r1 id ++ mapDelete r2 id := by
  simp [mapDelete]

theorem cleanupClient_of_lookup_none {r : Registry} {id : String}
    (h : regLookup r id = none) : cleanupClient r id = r := by
  simp [cleanupClient, h]

theorem cleanupClient_of_lookup_some {r : Registry} {id : String}
    {c : ClientState} (h : regLookup r id = some c) :
    cleanupClient r id = mapDelete r id := by
  simp only [cleanupClient, h]
  cases hterm : terminateResult c <;> simp [hterm]

/-! ## Sweep and trace lemmas -/

theorem sweep_cons (k : String) (c : ClientState) (rest : Registry) :
    sweep ((k, c) :: rest) =
      match sweepClient c with
      | none => sweep rest
      | some c2 => (k, c2) :: sweep rest := by
  simp only [sweep, List.filterMap_cons]
  cases sweepClient c <;> rfl

theorem regLookup_sweep_of_none (r : Registry) (id : String) :
    regLookup r id = none → regLookup (sweep r) id = none := by
  induction r with
  | nil => intro _; rfl
  | cons p rest ih =>
      obtain ⟨k, c⟩ := p
      intro h
      simp only [regLookup] at h
      by_cases hk : k = id
      · simp [hk] at h
      · rw [if_neg hk] at h
        rw [sweep_cons]
        cases hsc : sweepClient c with
        | none => exact ih h
        | some c2 =>
            simp only [regLookup, if_neg hk]
            exact ih h

theorem regLookup_sweep (r : Registry) (id : String) :
    (regKeys r).Nodup →
    regLookup (sweep r) id = (regLookup r id).bind sweepClient := by
  induction r with
  | nil => intro _; rfl
  | cons p rest ih =>
      obtain ⟨k, c⟩ := p
      intro hnd
      rw [regKeys_cons, List.nodup_cons] at hnd
      rw [sweep_cons]
      by_cases hk : k = id
      · subst hk
        have hrest : regLookup rest k = none :=
          (regLookup_eq_none_iff rest k).mpr hnd.1
        cases hsc : sweepClient c with
        | none =>
            rw [regLookup_sweep_of_none rest k hrest]
            simp [regLookup, hsc]
        | some c2 =>
            simp [regLookup, hsc]
      · cases hsc : sweepClient c with
        | none =>
            rw [ih hnd.2]
            simp [regLookup, hk]
        | some c2 =>
            simp only [regLookup, if_neg hk]
            rw [ih hnd.2]

theorem regLookup_onPong_ne {id tid : String} (hne : id ≠ tid)
    (r : Registry) (now : Int) :
    regLookup (onPong r tid now) id = regLookup r id := by
  simp only [onPong]
  cases h : regLookup r tid with
  | none => rfl
  | some c => exact regLookup_mapSet_ne hne r _

theorem regLookup_onPong_self {r : Registry} {id : String} {c : ClientState}
    (h : regLookup r id = some c) (now : Int) :
    regLookup (onPong r id now) id =
      some { c with isAlive := true, lastPing := now } := by
  simp only [onPong, h]
  exact regLookup_mapSet_self r id _

theorem regKeys_sweep_sublist (r : Registry) :
    (regKeys (sweep r)).Sublist (regKeys r) := by
  induction r with
  | nil => simp [sweep, regKeys]
  | cons p rest ih =>
      obtain ⟨k, c⟩ := p
      rw [sweep_cons, regKeys_cons]
      cases sweepClient c with
      | none => exact ih.cons k
      | some c2 =>
          rw [regKeys_cons]
          exact ih.cons₂ k

theorem nodup_sweep {r : Registry} (h : (regKeys r).Nodup) :
    (regKeys (sweep r)).Nodup :=
  (regKeys_sweep_sublist r).nodup h

theorem nodup_onPong {r : Registry} (h : (regKeys r).Nodup)
    (id : String) (now : Int) : (regKeys (onPong r id now)).Nodup := by
  simp only [onPong]
  cases hl : regLookup r id with
  | none => exact h
  | some c =>
      rw [regKeys_mapSet_mem (mem_regKeys_of_lookup hl)]
      exact h

theorem applyTrace_nil (r : Registry) : applyTrace r [] = r := rfl

theorem applyTrace_cons (r : Registry) (e : RegEvent) (evs : List RegEvent) :
    applyTrace r (e :: evs) = applyTrace (applyEvent r e) evs := rfl

theorem regLookup_applyTrace_of_none (evs : List RegEvent) :
    ∀ (r : Registry) (id : String), regLookup r id = none →
      regLookup (applyTrace r evs) id = none := by
  induction evs with
  | nil => intro r id h; exact h
  | cons e rest ih =>
      intro r id h
      rw [applyTrace_cons]
      apply ih
      cases e with
      | sweepCycle => exact regLookup_sweep_of_none r id h
      | pongAck tid now =>
          by_cases ht : id = tid
          · subst ht
            simp [applyEvent, onPong, h]
          · show regLookup (onPong r tid now) id = none
            rw [regLookup_onPong_ne ht]
            exact h

theorem evicted_after_trace (evs : List RegEvent) :
    ∀ (r : Registry) (id : String), (regKeys r).Nodup →
      (∀ e ∈ evs, isAckFor id e = false) →
      1 ≤ sweepCount evs →
      (regLookup r id = none ∨
        ∃ c, regLookup r id = some c ∧ c.isAlive = false) →
      regLookup (applyTrace r evs) id = none := by
  induction evs with
  | nil => intro r id _ _ hs _; simp [sweepCount] at hs
  | cons e rest ih =>
      intro r id hnd hack hs hdead
      cases e with
      | sweepCycle =>
          rw [applyTrace_cons]
          apply regLookup_applyTrace_of_none
          show regLookup (sweep r) id = none
          rw [regLookup_sweep r id hnd]
          rcases hdead with hnone | ⟨c, hc, hal⟩
          · rw [hnone]; rfl
          · rw [hc]
            simp [sweepClient, hal]
      | pongAck tid now =>
          rw [applyTrace_cons]
          have htid := hack _ (List.mem_cons_self _ _)
          have hne : id ≠ tid := by
            simp [isAckFor] at htid
            exact fun h => htid h.symm
          exact ih (onPong r tid now) id (nodup_onPong hnd tid now)
            (fun e2 he => hack e2 (List.mem_cons_of_mem _ he))
            (by simpa [sweepCount, List.filter_cons, isSweep] using hs)
            (by rw [regLookup_onPong_ne hne]; exact hdead)

theorem sweep_first_strike (r : Registry) (id : String)
    (hnd : (regKeys r).Nodup) :
    regLookup (sweep r) id = none ∨
      ∃ c, regLookup (sweep r) id = some c ∧ c.isAlive = false := by
  rw [regLookup_sweep r id hnd]
  cases h : regLookup r id with
  | none => exact .inl rfl
  | some c =>
      by_cases ha : c.isAlive
      · by_cases hp : c.ws.pingFails
        · left; simp [sweepClient, ha, hp]
        · right
          exact ⟨{ c with isAlive := false }, by simp [sweepClient, ha, hp], rfl⟩
      · left; simp [sweepClient, ha]

theorem never_acked_evicted (evs : List RegEvent) :
    ∀ (r : Registry) (id : String), (regKeys r).Nodup →
      (∀ e ∈ evs, isAckFor id e = false) →
      2 ≤ sweepCount evs →
      regLookup (applyTrace r evs) id = none := by
  induction evs with
  | nil => intro r id _ _ hs; simp [sweepCount] at hs
  | cons e rest ih =>
      intro r id hnd hack hs
      cases e with
      | sweepCycle =>
          rw [applyTrace_cons]
          exact evicted_after_trace rest (sweep r) id (nodup_sweep hnd)
            (fun e2 he => hack e2 (List.mem_cons_of_mem _ he))
            (by
              have heq : sweepCount (RegEvent.sweepCycle :: rest) =
                  sweepCount rest + 1 := by
                simp [sweepCount, List.filter_cons, isSweep]
              rw [heq] at hs
              omega)
            (sweep_first_strike r id hnd)
      | pongAck tid now =>
          rw [applyTrace_cons]
          have htid := hack _ (List.mem_cons_self _ _)
          have hne : id ≠ tid := by
            simp [isAckFor] at htid
            exact fun h => htid h.symm
          exact ih (onPong r tid now) id (nodup_onPong hnd tid now)
            (fun e2 he => hack e2 (List.mem_cons_of_mem _ he))
            (by simpa [sweepCount, List.filter_cons, isSweep] using hs)

theorem survives_trace (evs : List RegEvent) :
    ∀ (r : Registry) (id : String) (c : ClientState),
      (regKeys r).Nodup →
      regLookup r id = some c →
      c.ws.pingFails = false →
      ackPattern id (!c.isAlive) evs = true →
      (regLookup (applyTrace r evs) id).isSome = true := by
  induction evs with
  | nil =>
      intro r id c _ hl _ _
      simp [applyTrace_nil, hl]
  | cons e rest ih =>
      intro r id c hnd hl hp hpat
      cases e with
      | sweepCycle =>
          rw [applyTrace_cons]
          simp only [ackPattern, Bool.not_not, Bool.and_eq_true] at hpat
          obtain ⟨halive, hrest⟩ := hpat
          have hnew : regLookup (sweep r) id =
              some { c with isAlive := false } := by
            rw [regLookup_sweep r id hnd, hl]
            simp [sweepClient, halive, hp]
          exact ih (sweep r) id _ (nodup_sweep hnd) hnew hp
            (by simpa using hrest)
      | pongAck tid now =>
          rw [applyTrace_cons]
          by_cases ht : tid = id
          · subst ht
            have hnew := regLookup_onPong_self hl now
            exact ih (onPong r tid now) tid _ (nodup_onPong hnd tid now)
              hnew hp (by simpa [ackPattern] using hpat)
          · have hnew : regLookup (onPong r tid now) id = some c := by
              rw [regLookup_onPong_ne (fun h => ht h.symm)]
              exact hl
            have hb : (tid == id) = false := beq_eq_false_iff_ne.mpr ht
            exact ih (onPong r tid now) id c (nodup_onPong hnd tid now)
              hnew hp (by simpa [ackPattern, hb] using hpat)

/-! ## Broadcast lemmas -/

theorem broadcastPass_append (m : String) (l1 l2 : Registry) :
    broadcastPass m (l1 ++ l2) =
      { attempts := (broadcastPass m l1).attempts ++ (broadcastPass m l2).attempts,
        delivered := (broadcastPass m l1).delivered ++ (broadcastPass m l2).delivered,
        failed := (broadcastPass m l1).failed ++ (broadcastPass m l2).failed } := by
  induction l1 with
  | nil => simp [broadcastPass]
  | cons p rest ih =>
      obtain ⟨id, c⟩ := p
      by_cases ho : c.ws.readyStateOpen
      · by_cases hs : c.ws.sendFails
        · simp [broadcastPass, ho, hs, ih]
        · simp [broadcastPass, ho, hs, ih]
      · simp [broadcastPass, ho, ih]

theorem broadcastPass_all_ok (m : String) (r : Registry)
    (h : ∀ p ∈ r, p.2.ws.readyStateOpen = true ∧ p.2.ws.sendFails = false) :
    broadcastPass m r =
      { attempts := r.map (fun p => (p.1, m)),
        delivered := regKeys r,
        failed := [] } := by
  induction r with
  | nil => rfl
  | cons p rest ih =>
      obtain ⟨id, c⟩ := p
      obtain ⟨ho, hs⟩ := h (id, c) (List.mem_cons_self _ _)
      have ho2 : c.ws.readyStateOpen = true := ho
      have hs2 : c.ws.sendFails = false := hs
      have ih2 := ih (fun q hq => h q (List.mem_cons_of_mem _ hq))
      simp [broadcastPass, ho2, hs2, ih2, regKeys]

theorem broadcastPass_attempts_all_open (m : String) (r : Registry)
    (h : ∀ p ∈ r, p.2.ws.readyStateOpen = true) :
    (broadcastPass m r).attempts = r.map (fun p => (p.1, m)) := by
  induction r with
  | nil => rfl
  | cons p rest ih =>
      obtain ⟨id, c⟩ := p
      have ho2 : c.ws.readyStateOpen = true := h (id, c) (List.mem_cons_self _ _)
      have ih2 := ih (fun q hq => h q (List.mem_cons_of_mem _ hq))
      by_cases hs : c.ws.sendFails
      · simp [broadcastPass, ho2, hs, ih2]
      · simp [broadcastPass, ho2, hs, ih2]

theorem broadcastPass_attempts_message (m : String) (r : Registry) :
    ∀ a ∈ (broadcastPass m r).attempts, a.2 = m := by
  induction r with
  | nil => intro a ha; simp [broadcastPass] at ha
  | cons p rest ih =>
      obtain ⟨id, c⟩ := p
      intro a ha
      by_cases ho : c.ws.readyStateOpen
      · by_cases hs : c.ws.sendFails
        · simp [broadcastPass, ho, hs] at ha
          rcases ha with rfl | ha
          · rfl
          · exact ih a ha
        · simp [broadcastPass, ho, hs] at ha
          rcases ha with rfl | ha
          · rfl
          · exact ih a ha
      · simp [broadcastPass, ho] at ha
        exact ih a ha

/-! ## Ingest lemmas -/

theorem ingest_valid (s : ServerState) (d : JVal) (recvNow storeNow : Int)
    (h : validPayload d = true) :
    ingest s (some d) recvNow storeNow =
      { state := { s with
          dataPoints := s.dataPoints.push (buildStored d recvNow) storeNow },
        result := .success ((getField d "timestamp").getD .jnull)
          s.connectedClients.length,
        scheduledBroadcast := some (buildStored d recvNow) } := by
  simp only [validPayload, Bool.and_eq_true] at h
  obtain ⟨⟨h1, h2⟩, h3⟩ := h
  simp [ingest, h1, h2, h3]

theorem ingest_invalid (s : ServerState) (d : JVal) (recvNow storeNow : Int)
    (h : validPayload d = false) :
    ingest s (some d) recvNow storeNow =
      { state := s, result := .invalidPayload, scheduledBroadcast := none } := by
  have hcond : (!truthy d || !truthyOpt (getField d "timestamp")
      || !isArrayOpt (getField d "harmonic")) = true := by
    simp only [validPayload] at h
    cases h1 : truthy d <;> cases h2 : truthyOpt (getField d "timestamp") <;>
      cases h3 : isArrayOpt (getField d "harmonic") <;> simp_all
  simp [ingest, hcond]

/-! ## Spec-side definitions used to settle the amended claims -/

/-- Whether a value is a JSON scalar (null, boolean, number or string). -/
def isScalar : JVal → Bool
  | .jnull => true
  | .jbool _ => true
  | .jnum _ => true
  | .jstr _ => true
  | .jarr _ => false
  | .jobj _ => false

/-- The validation gate exactly as claim C2 words it (used only to exhibit
the mismatch with the code): reject iff the payload is structurally
absent, lacks a `timestamp` property (any JSON scalar value counts as
carrying one, so presence of the property suffices), or `harmonic` is not
an array. -/
def claimInvalidC2 : Option JVal → Bool
  | none => true
  | some d => !(getField d "timestamp").isSome
      || !isArrayOpt (getField d "harmonic")

/-- Whether a possibly-absent property value is JS-falsy, enumerated by
shape (the amendment to claim C2): absent, `null`, `false`, `0`, or the
empty string. -/
def falsyTimestamp : Option JVal → Bool
  | none => true
  | some .jnull => true
  | some (.jbool b) => !b
  | some (.jnum n) => n == 0
  | some (.jstr s) => s == ""
  | some (.jarr _) => false
  | some (.jobj _) => false

/-- The validation gate as amended: reject exactly when the payload is
absent or falsy, its `timestamp` is absent or a falsy value, or its
`harmonic` is not an array. -/
def amendedInvalid : Option JVal → Bool
  | none => true
  | some d => !truthy d || falsyTimestamp (getField d "timestamp")
      || !isArrayOpt (getField d "harmonic")

theorem falsyTimestamp_eq (v : Option JVal) :
    falsyTimestamp v = !truthyOpt v := by
  cases v with
  | none => rfl
  | some w =>
      cases w with
      | jnull => rfl
      | jbool b => rfl
      | jnum n => simp [falsyTimestamp, truthyOpt, truthy, bne]
      | jstr s => simp [falsyTimestamp, truthyOpt, truthy, bne]
      | jarr xs => rfl
      | jobj fs => rfl

theorem amendedInvalid_some (d : JVal) :
    amendedInvalid (some d) = !validPayload d := by
  simp only [amendedInvalid, falsyTimestamp_eq, validPayload]
  cases truthy d <;> cases truthyOpt (getField d "timestamp") <;>
    cases isArrayOpt (getField d "harmonic") <;> rfl

/-! ## Concrete example values used by witnesses and counterexamples -/

/-- Server state with an empty store and no connections. -/
def emptyServer : ServerState :=
  { dataPoints := { latestData := none }, connectedClients := [] }

/-- Valid example payload A. -/
def pSampleA : JVal :=
  .jobj [("timestamp", .jnum 1), ("harmonic", .jarr [])]

/-- Valid example payload B. -/
def pSampleB : JVal :=
  .jobj [("timestamp", .jnum 2), ("harmonic", .jarr [.jnum 3])]

/-- Payload with `timestamp: 0` (a JSON scalar) and an array `harmonic`. -/
def pZeroTs : JVal :=
  .jobj [("timestamp", .jnum 0), ("harmonic", .jarr [.jnum 1, .jnum 2])]

/-- The spec's P2 payload: `timestamp: null`, `harmonic: [1,2]`. -/
def pNullTs : Option JVal :=
  some (.jobj [("timestamp", .jnull), ("harmonic", .jarr [.jnum 1, .jnum 2])])

/-- The degraded payload of claim C9: empty `harmonic`, non-array `volt`. -/
def pDegraded : JVal :=
  .jobj [("timestamp", .jnum 5), ("harmonic", .jarr []),
    ("volt", .jstr "not-an-array")]

/-- The scenario payload of claim C8 (40 harmonic magnitudes). -/
def scenarioPayload : JVal :=
  .jobj
    [("timestamp", .jnum 1000),
     ("volt", .jarr [.jnum 120, .jnum 121, .jnum 119, .jnum 0]),
     ("current", .jarr [.jnum 10, .jnum 10, .jnum 10, .jnum 0]),
     ("power", .jarr [.jnum 50, .jnum 10, .jnum 52]),
     ("harmonic", .jarr ((List.range 40).map (fun i => JVal.jnum (Int.ofNat i + 1)))),
     ("events", .jarr [])]

/-- The element held by the store after ingesting the scenario payload at
receive time 2000 and store time 2001. -/
def scenarioStored : JVal := withStoredAt (buildStored scenarioPayload 2000) 2001

/-- A healthy open transport. -/
def tOpen : Transport :=
  { readyStateOpen := true, sendFails := false, pingFails := false,
    terminateFails := false }

/-- An open transport whose `send` throws. -/
def tSendBroken : Transport :=
  { readyStateOpen := true, sendFails := true, pingFails := false,
    terminateFails := false }

/-- An open transport whose `ping` throws. -/
def tPingBroken : Transport :=
  { readyStateOpen := true, sendFails := false, pingFails := true,
    terminateFails := false }

/-- An open transport whose `terminate` throws. -/
def tTermBroken : Transport :=
  { readyStateOpen := true, sendFails := false, pingFails := false,
    terminateFails := true }

/-- A healthy alive client entry. -/
def cOpen : ClientState :=
  { ws := tOpen, connectedAt := 0, lastPing := 0, isAlive := true }

/-- An alive client whose send throws. -/
def cSendBroken : ClientState :=
  { ws := tSendBroken, connectedAt := 0, lastPing := 0, isAlive := true }

/-- An alive client whose ping throws. -/
def cPingBroken : ClientState :=
  { ws := tPingBroken, connectedAt := 0, lastPing := 0, isAlive := true }

/-- An alive client whose terminate throws. -/
def cTermBroken : ClientState :=
  { ws := tTermBroken, connectedAt := 0, lastPing := 0, isAlive := true }

/-- Registry holding one client whose terminate throws. -/
def regTerm : Registry := [("a", cTermBroken)]

/-- Registry holding one healthy alive client. -/
def regOne : Registry := [("a", cOpen)]

/-- Registry holding one client whose ping throws. -/
def regPing : Registry := [("b", cPingBroken)]

/-- Registry of two healthy open clients. -/
def regTwo : Registry := [("a", cOpen), ("b", cOpen)]

/-! ## Claim theorems -/

/-- Claim C1 (confirmed): after `ingest(A)` succeeds and then `ingest(B)`
succeeds, `getLatest` returns the one-element sequence holding exactly B's
stored object (B's data plus the `receivedAt` and `storedAt` ingestion
stamps), never A's data and never both; and the store can never hold more
than one sample. -/
theorem single_slot_store (s : ServerState) (a b : JVal)
    (ta sa tb sb : Int)
    (hA : validPayload a = true) (hB : validPayload b = true) :
    ((ingest (ingest s (some a) ta sa).state (some b) tb sb).state.dataPoints.getLatest
        = [withStoredAt (buildStored b tb) sb])
    ∧ ∀ buf : DataBuffer, buf.getLatest.length ≤ 1 := by
  constructor
  · rw [ingest_valid s a ta sa hA]
    rw [ingest_valid _ b tb sb hB]
    rfl
  · intro buf
    obtain ⟨ld⟩ := buf
    cases ld <;> simp [DataBuffer.getLatest]

/-- Witness for C1 at the concrete payloads A and B. -/
theorem single_slot_store_witness :
    validPayload pSampleA = true ∧ validPayload pSampleB = true ∧
    ((ingest (ingest emptyServer (some pSampleA) 10 11).state (some pSampleB) 20 21).state.dataPoints.getLatest
        = [withStoredAt (buildStored pSampleB 20) 21]) :=
  ⟨rfl, rfl,
    (single_slot_store emptyServer pSampleA pSampleB 10 11 20 21 rfl rfl).1⟩

/-- Claim C3 (confirmed): a broadcast serializes the sample exactly once
when the registry is nonempty and not at all when it is empty; with every
transport open it performs one send attempt per registry entry, and every
attempt carries the identical serialized string. -/
theorem broadcast_fanout (r : Registry) (d : JVal)
    (h : ∀ p ∈ r, p.2.ws.readyStateOpen = true) :
    (broadcastData r d).attempts.length = r.length
    ∧ (∀ a ∈ (broadcastData r d).attempts, a.2 = serialize d)
    ∧ (broadcastData r d).serializations = if r.isEmpty then 0 else 1 := by
  have hatt := broadcastPass_attempts_all_open (serialize d) r h
  cases r with
  | nil => simp [broadcastData]
  | cons p rest =>
      refine ⟨?_, ?_, ?_⟩
      · simp only [broadcastData, List.isEmpty_cons, Bool.false_eq_true,
          if_false]
        rw [hatt]
        simp
      · intro a ha
        simp only [broadcastData, List.isEmpty_cons, Bool.false_eq_true,
          if_false] at ha
        exact broadcastPass_attempts_message (serialize d) (p :: rest) a ha
      · simp [broadcastData]

/-- Witness for C3 at a concrete two-client registry and at the empty
registry. -/
theorem broadcast_fanout_witness :
    (broadcastData regTwo pSampleB).attempts.length = 2
    ∧ (broadcastData regTwo pSampleB).serializations = 1
    ∧ (broadcastData ([] : Registry) pSampleB).serializations = 0
    ∧ (broadcastData ([] : Registry) pSampleB).attempts.length = 0 := by
  have h2 := broadcast_fanout regTwo pSampleB (by decide)
  have h0 := broadcast_fanout ([] : Registry) pSampleB (by intro p hp; cases hp)
  exact ⟨h2.1, h2.2.2, h0.2.2, h0.1⟩

/-- Claim C5 (confirmed): with N open connections of which exactly one has
a throwing send, the broadcast still delivers the identical payload to the
other N-1, removes the failing connection after the pass, and leaves a
registry of size N-1; the model is a total function, so the failure never
propagates to the caller. -/
theorem broadcast_failure_isolation (r1 r2 : Registry) (id : String)
    (c : ClientState) (d : JVal)
    (hnd : (regKeys (r1 ++ (id, c) :: r2)).Nodup)
    (hok : ∀ p ∈ r1 ++ r2, p.2.ws.readyStateOpen = true ∧ p.2.ws.sendFails = false)
    (ho : c.ws.readyStateOpen = true) (hs : c.ws.sendFails = true) :
    (broadcastData (r1 ++ (id, c) :: r2) d).delivered = regKeys r1 ++ regKeys r2
    ∧ (∀ a ∈ (broadcastData (r1 ++ (id, c) :: r2) d).attempts, a.2 = serialize d)
    ∧ (broadcastData (r1 ++ (id, c) :: r2) d).registry = r1 ++ r2
    ∧ (broadcastData (r1 ++ (id, c) :: r2) d).registry.length
        = (r1 ++ (id, c) :: r2).length - 1 := by
  have hndparts : id ∉ regKeys r1 ∧ id ∉ regKeys r2 := by
    rw [regKeys_append, regKeys_cons, List.nodup_append] at hnd
    obtain ⟨nd1, nd2, disj⟩ := hnd
    exact ⟨fun hx => disj hx (List.mem_cons_self _ _),
      (List.nodup_cons.mp nd2).1⟩
  have hok1 : ∀ p ∈ r1, p.2.ws.readyStateOpen = true ∧ p.2.ws.sendFails = false :=
    fun p hp => hok p (List.mem_append_left _ hp)
  have hok2 : ∀ p ∈ r2, p.2.ws.readyStateOpen = true ∧ p.2.ws.sendFails = false :=
    fun p hp => hok p (List.mem_append_right _ hp)
  have hcons : broadcastPass (serialize d) ((id, c) :: r2) =
      { attempts := (id, serialize d) :: r2.map (fun p => (p.1, serialize d)),
        delivered := regKeys r2,
        failed := [id] } := by
    simp [broadcastPass, ho, hs, broadcastPass_all_ok _ r2 hok2]
  have hpass : broadcastPass (serialize d) (r1 ++ (id, c) :: r2) =
      { attempts := r1.map (fun p => (p.1, serialize d))
          ++ (id, serialize d) :: r2.map (fun p => (p.1, serialize d)),
        delivered := regKeys r1 ++ regKeys r2,
        failed := [id] } := by
    rw [broadcastPass_append, broadcastPass_all_ok _ r1 hok1, hcons]
    rfl
  have hempty : (r1 ++ (id, c) :: r2).isEmpty = false := by
    cases r1 <;> rfl
  have hlook : regLookup (r1 ++ (id, c) :: r2) id = some c := by
    rw [regLookup_append_right hndparts.1]
    simp [regLookup]
  have hdel2 : mapDelete ((id, c) :: r2) id = r2 := by
    have h2 := @mapDelete_of_not_mem r2 id hndparts.2
    simp only [mapDelete, List.filter_cons] at h2 ⊢
    simpa using h2
  have hreg : (broadcastData (r1 ++ (id, c) :: r2) d).registry = r1 ++ r2 := by
    simp only [broadcastData, hempty, Bool.false_eq_true, if_false, hpass]
    show cleanupClient (r1 ++ (id, c) :: r2) id = r1 ++ r2
    rw [cleanupClient_of_lookup_some hlook, mapDelete_append,
      mapDelete_of_not_mem hndparts.1, hdel2]
  refine ⟨?_, ?_, hreg, ?_⟩
  · simp only [broadcastData, hempty, Bool.false_eq_true, if_false, hpass]
  · intro a ha
    simp only [broadcastData, hempty, Bool.false_eq_true, if_false] at ha
    exact broadcastPass_attempts_message (serialize d) _ a ha
  · rw [hreg]
    simp [List.length_append]

/-- Witness for C5: one failing client between two healthy ones. -/
theorem broadcast_failure_isolation_witness :
    (broadcastData [("a", cOpen), ("x", cSendBroken), ("b", cOpen)] pSampleB).delivered
        = ["a", "b"]
    ∧ (broadcastData [("a", cOpen), ("x", cSendBroken), ("b", cOpen)] pSampleB).registry
        = [("a", cOpen), ("b", cOpen)]
    ∧ (broadcastData [("a", cOpen), ("x", cSendBroken), ("b", cOpen)] pSampleB).registry.length
        = 2 := by
  have h := broadcast_failure_isolation [("a", cOpen)] [("b", cOpen)] "x"
    cSendBroken pSampleB (by decide) (by decide) rfl rfl
  exact ⟨h.1, h.2.2.1, h.2.2.2⟩

/-- Claim C6 (confirmed): removal is idempotent — removing the same id
twice equals removing it once, and removing an absent id is a no-op — and
when the id is present the outcome is plain deletion regardless of whether
closing the transport throws (the exception is swallowed, never
propagated). -/
theorem idempotent_removal (r : Registry) (id : String) :
    cleanupClient (cleanupClient r id) id = cleanupClient r id
    ∧ (regLookup r id = none → cleanupClient r id = r)
    ∧ (∀ c, regLookup r id = some c → cleanupClient r id = mapDelete r id) := by
  refine ⟨?_, fun h => cleanupClient_of_lookup_none h,
    fun c h => cleanupClient_of_lookup_some h⟩
  cases h : regLookup r id with
  | none => rw [cleanupClient_of_lookup_none h, cleanupClient_of_lookup_none h]
  | some c =>
      rw [cleanupClient_of_lookup_some h]
      exact cleanupClient_of_lookup_none (regLookup_mapDelete_self r id)

/-- Witness for C6 at a registry whose only client's terminate throws. -/
theorem idempotent_removal_witness :
    cleanupClient (cleanupClient regTerm "a") "a" = cleanupClient regTerm "a"
    ∧ cleanupClient regTerm "zz" = regTerm
    ∧ cleanupClient regTerm "a" = mapDelete regTerm "a" :=
  ⟨(idempotent_removal regTerm "a").1,
    (idempotent_removal regTerm "zz").2.1 rfl,
    (idempotent_removal regTerm "a").2.2 cTermBroken rfl⟩

/-- Claim C7 (counterexample, refuting the claim as stated): the generated
id is drawn from a random oracle with no freshness check, so a repeated id
makes the second add overwrite the first entry — after two connections
under the same generated id the registry holds a single entry, the second
one; the first connection's entry is displaced. -/
theorem registry_key_uniqueness_counterexample :
    (onConnection (onConnection [] "abc" 0 tOpen) "abc" 1 tOpen).length = 1
    ∧ regLookup (onConnection (onConnection [] "abc" 0 tOpen) "abc" 1 tOpen) "abc"
        = some { ws := tOpen, connectedAt := 1, lastPing := 1, isAlive := true }
    ∧ ¬ (("abc", ({ ws := tOpen, connectedAt := 0, lastPing := 0, isAlive := true } : ClientState))
        ∈ onConnection (onConnection [] "abc" 0 tOpen) "abc" 1 tOpen) := by
  refine ⟨rfl, rfl, ?_⟩
  decide

/-- Claim C7 (amended): whenever the generated id is fresh — not currently
a key of the registry — the add appends a new entry, preserves every
existing entry, grows the size by one, and keeps the registry keys
unique.  (As stated the claim fails: ids are random and a colliding id
overwrites the existing entry.) -/
theorem registry_key_uniqueness (r : Registry) (id : String) (now : Int)
    (t : Transport) (h : id ∉ regKeys r) :
    onConnection r id now t
        = r ++ [(id, { ws := t, connectedAt := now, lastPing := now, isAlive := true })]
    ∧ (onConnection r id now t).length = r.length + 1
    ∧ ((regKeys r).Nodup → (regKeys (onConnection r id now t)).Nodup) := by
  simp only [onConnection]
  have happ := regKeys_mapSet_not_mem h
    { ws := t, connectedAt := now, lastPing := now, isAlive := true }
  refine ⟨happ, ?_, fun hnd => ?_⟩
  · rw [happ]
    simp
  · rw [happ, regKeys_append, List.nodup_append]
    refine ⟨hnd, List.nodup_singleton _, ?_⟩
    intro x hx hx2
    have hxid : x = id := by simpa [regKeys] using hx2
    subst hxid
    exact h hx

/-- Witness for C7 (amended) at a fresh id. -/
theorem registry_key_uniqueness_witness :
    onConnection regOne "b" 5 tOpen
        = regOne ++ [("b", { ws := tOpen, connectedAt := 5, lastPing := 5, isAlive := true })]
    ∧ (onConnection regOne "b" 5 tOpen).length = regOne.length + 1 := by
  have h := registry_key_uniqueness regOne "b" 5 tOpen (by decide)
  exact ⟨h.1, h.2.1⟩

/-- Claim C10 (confirmed): a pong acknowledgment for an id that is no
longer registered is a no-op — the handler does not fail, does not
re-insert an entry, and leaves the registry unchanged. -/
theorem pong_no_resurrection (r : Registry) (id : String) (now : Int)
    (h : regLookup r id = none) : onPong r id now = r := by
  simp [onPong, h]

/-- Witness for C10: a pong for an unregistered id leaves the registry
untouched. -/
theorem pong_no_resurrection_witness :
    onPong regOne "gone" 7 = regOne :=
  pong_no_resurrection regOne "gone" 7 rfl

/-- Claim C4 (confirmed): over sweep/acknowledgment traces on a registry
with unique keys — a registered connection never acknowledged is gone
after any trace containing at least two sweep cycles; an alive connection
with a working probe transport that acknowledges between every pair of
consecutive sweeps is never evicted; and a connection whose probe send
fails is removed within the same sweep cycle. -/
theorem two_strike_liveness (r : Registry) (id : String)
    (hnd : (regKeys r).Nodup) :
    (∀ evs : List RegEvent, (∀ e ∈ evs, isAckFor id e = false) →
        2 ≤ sweepCount evs → regLookup (applyTrace r evs) id = none)
    ∧ (∀ (evs : List RegEvent) (c : ClientState), regLookup r id = some c →
        c.isAlive = true → c.ws.pingFails = false →
        ackPattern id false evs = true →
        (regLookup (applyTrace r evs) id).isSome = true)
    ∧ (∀ c : ClientState, regLookup r id = some c → c.ws.pingFails = true →
        regLookup (sweep r) id = none) := by
  refine ⟨fun evs hack hs => never_acked_evicted evs r id hnd hack hs,
    fun evs c hl ha hp hpat => ?_, fun c hl hp => ?_⟩
  · exact survives_trace evs r id c hnd hl hp (by rw [ha]; exact hpat)
  · rw [regLookup_sweep r id hnd, hl]
    by_cases hA : c.isAlive
    · simp [sweepClient, hA, hp]
    · simp [sweepClient, hA]

/-- Witness for C4: a silent client is gone after two sweeps, a client that
pongs between the sweeps survives them, and a client whose ping throws is
removed by a single sweep. -/
theorem two_strike_liveness_witness :
    regLookup (applyTrace regOne [RegEvent.sweepCycle, RegEvent.sweepCycle]) "a" = none
    ∧ (regLookup (applyTrace regOne
        [RegEvent.sweepCycle, RegEvent.pongAck "a" 5, RegEvent.sweepCycle]) "a").isSome = true
    ∧ regLookup (sweep regPing) "b" = none :=
  ⟨(two_strike_liveness regOne "a" (by decide)).1
      [RegEvent.sweepCycle, RegEvent.sweepCycle] (by decide) (by decide),
    (two_strike_liveness regOne "a" (by decide)).2.1
      [RegEvent.sweepCycle, RegEvent.pongAck "a" 5, RegEvent.sweepCycle]
      cOpen rfl rfl rfl (by decide),
    (two_strike_liveness regPing "b" (by decide)).2.2 cPingBroken rfl rfl⟩

/-- Claim C2 (counterexample, refuting the claim as stated): the payload
with `timestamp: 0` carries a JSON scalar timestamp and an array
`harmonic`, so by the claim it must be accepted, yet the code signals
InvalidPayload because `0` is JS-falsy. -/
theorem validation_gate_counterexample :
    claimInvalidC2 (some pZeroTs) = false
    ∧ isScalar (JVal.jnum 0) = true
    ∧ (ingest emptyServer (some pZeroTs) 0 0).result = IngestResult.invalidPayload
    ∧ (ingest emptyServer (some pZeroTs) 0 0).state = emptyServer :=
  ⟨rfl, rfl, rfl, rfl⟩

/-- Claim C2 (amended): ingest signals InvalidPayload exactly when the
payload is absent or falsy, its `timestamp` is absent or a JS-falsy value
(`null`, `false`, `0`, the empty string), or `harmonic` is not an array;
on that failure the store and the registry (hence the connection count)
are untouched and no broadcast is scheduled; on every other payload ingest
succeeds, echoing the timestamp and the current connection count, and a
broadcast is scheduled. -/
theorem validation_gate (s : ServerState) (p : Option JVal)
    (recvNow storeNow : Int) :
    ((ingest s p recvNow storeNow).result = IngestResult.invalidPayload
        ↔ amendedInvalid p = true)
    ∧ (amendedInvalid p = true →
        (ingest s p recvNow storeNow).state = s
        ∧ (ingest s p recvNow storeNow).scheduledBroadcast = none)
    ∧ (amendedInvalid p = false →
        (ingest s p recvNow storeNow).result
          = IngestResult.success
              ((p.bind (fun d => getField d "timestamp")).getD .jnull)
              s.connectedClients.length
        ∧ (ingest s p recvNow storeNow).scheduledBroadcast.isSome = true) := by
  cases p with
  | none =>
      refine ⟨by simp [ingest, amendedInvalid], fun _ => ⟨rfl, rfl⟩, ?_⟩
      intro h
      simp [amendedInvalid] at h
  | some d =>
      rw [amendedInvalid_some]
      by_cases hv : validPayload d = true
      · rw [ingest_valid s d recvNow storeNow hv]
        refine ⟨by simp [hv], ?_, fun _ => ⟨rfl, rfl⟩⟩
        intro h
        rw [hv] at h
        simp at h
      · have hv2 : validPayload d = false := by
          cases h : validPayload d
          · rfl
          · exact absurd h hv
        rw [ingest_invalid s d recvNow storeNow hv2]
        refine ⟨by simp [hv2], fun _ => ⟨rfl, rfl⟩, ?_⟩
        intro h
        rw [hv2] at h
        simp at h

/-- Witness for C2: the spec's P2 payload (`timestamp: null`) is rejected
with the state untouched and no broadcast scheduled, while a valid payload
is accepted with the connection count echoed. -/
theorem validation_gate_witness :
    ((ingest emptyServer pNullTs 0 0).state = emptyServer
      ∧ (ingest emptyServer pNullTs 0 0).scheduledBroadcast = none)
    ∧ ((ingest emptyServer (some pSampleB) 1 2).result
        = IngestResult.success (JVal.jnum 2) 0
      ∧ (ingest emptyServer (some pSampleB) 1 2).scheduledBroadcast.isSome = true) :=
  ⟨(validation_gate emptyServer pNullTs 0 0).2.1 rfl,
    (validation_gate emptyServer (some pSampleB) 1 2).2.2 rfl⟩

/-- Claim C8 (counterexample, refuting the claim as stated): the element
served by `getLatest` after ingesting the scenario payload carries a
second added stamp field `storedAt` besides `receivedAt`, so it is not
"the sample plus a `receivedAt` stamp and no other added fields". -/
theorem roundtrip_counterexample :
    (ingest emptyServer (some scenarioPayload) 2000 2001).state.dataPoints.getLatest
        = [scenarioStored]
    ∧ hasField scenarioStored "storedAt" = true
    ∧ hasField scenarioPayload "storedAt" = false
    ∧ "storedAt" ≠ "receivedAt" := by
  refine ⟨rfl, rfl, rfl, ?_⟩
  decide

/-- Claim C8 (amended): ingesting the scenario payload leaves the store
serving exactly one element — the sample's fields plus the `receivedAt`
stamp plus the `storedAt` stamp — and the power-quality projection serves
only the `timestamp`, `volt`, `current` and `power` fields of that
sample. -/
theorem roundtrip_fidelity :
    (ingest emptyServer (some scenarioPayload) 2000 2001).state.dataPoints.getLatest
      = [.jobj
          [("timestamp", .jnum 1000),
           ("volt", .jarr [.jnum 120, .jnum 121, .jnum 119, .jnum 0]),
           ("current", .jarr [.jnum 10, .jnum 10, .jnum 10, .jnum 0]),
           ("power", .jarr [.jnum 50, .jnum 10, .jnum 52]),
           ("harmonic", .jarr ((List.range 40).map (fun i => JVal.jnum (Int.ofNat i + 1)))),
           ("events", .jarr []),
           ("receivedAt", .jnum 2000),
           ("storedAt", .jnum 2001)]]
    ∧ apiPowerQuality (ingest emptyServer (some scenarioPayload) 2000 2001).state
      = [.jobj
          [("timestamp", .jnum 1000),
           ("volt", .jarr [.jnum 120, .jnum 121, .jnum 119, .jnum 0]),
           ("current", .jarr [.jnum 10, .jnum 10, .jnum 10, .jnum 0]),
           ("power", .jarr [.jnum 50, .jnum 10, .jnum 52])]] :=
  ⟨rfl, rfl⟩

/-- Claim C9 (counterexample, refuting the claim as stated): the degraded
payload is accepted and its stored `volt` is the empty array, and the full
endpoint serves the empty array — but the power-quality projection still
serves the stored sample although its `harmonic` is empty, so it is false
that every latest-sample read endpoint serves the empty array. -/
theorem degradation_counterexample :
    (ingest emptyServer (some pDegraded) 100 101).result
        = IngestResult.success (JVal.jnum 5) 0
    ∧ getField (withStoredAt (buildStored pDegraded 100) 101) "volt"
        = some (JVal.jarr [])
    ∧ apiData (ingest emptyServer (some pDegraded) 100 101).state = []
    ∧ apiPowerQuality (ingest emptyServer (some pDegraded) 100 101).state
        = [pqProject (withStoredAt (buildStored pDegraded 100) 101)]
    ∧ [pqProject (withStoredAt (buildStored pDegraded 100) 101)] ≠ ([] : List JVal) :=
  ⟨rfl, rfl, rfl, rfl, List.cons_ne_nil _ _⟩

/-- Claim C9 (amended): the degraded payload is accepted with `volt`
defaulted to the empty sequence; and for a stored sample whose `harmonic`
is empty, only the full `/api/data` endpoint filters it out and serves the
empty array — each projection endpoint serves its projection of the sample
regardless. -/
theorem graceful_degradation (st : ServerState) (item : JVal)
    (hst : st.dataPoints.latestData = some item)
    (hh : asArray (getField item "harmonic") = []) :
    (apiData st = []
    ∧ apiPowerQuality st = [pqProject item]
    ∧ apiHarmonics st = [harmonicsProject item]
    ∧ apiEvents st = [eventsProject item])
    ∧ ((ingest emptyServer (some pDegraded) 100 101).result
        = IngestResult.success (JVal.jnum 5) 0
    ∧ getField (withStoredAt (buildStored pDegraded 100) 101) "volt"
        = some (JVal.jarr [])) := by
  have hlatest : st.dataPoints.getLatest = [item] := by
    simp [DataBuffer.getLatest, hst]
  have hinvalid : dataItemValid item = false := by
    simp [dataItemValid, hh]
  refine ⟨⟨?_, ?_, ?_, ?_⟩, rfl, rfl⟩
  · simp [apiData, hlatest, List.filter_cons, hinvalid]
  · simp [apiPowerQuality, hlatest]
  · simp [apiHarmonics, hlatest]
  · simp [apiEvents, hlatest]

/-- Witness for C9 at the state produced by ingesting the degraded
payload. -/
theorem graceful_degradation_witness :
    apiData (ingest emptyServer (some pDegraded) 100 101).state = []
    ∧ apiPowerQuality (ingest emptyServer (some pDegraded) 100 101).state
        = [pqProject (withStoredAt (buildStored pDegraded 100) 101)] := by
  have h := graceful_degradation
    (ingest emptyServer (some pDegraded) 100 101).state
    (withStoredAt (buildStored pDegraded 100) 101) rfl rfl
  exact ⟨h.1.1, h.1.2.1⟩

end Dcac
